import Mathlib

set_option maxRecDepth 8000

/-!
Shallow embedding of the zmanian/textsecure Go client core: the pinned TLS
dialer (transport.go, makeDialer), the websocket receive loop (websocket.go,
ListenForMessages and sendAck), the push envelope layer and registration
setup (the library source of the repository), and the base64 key codec
helpers.  Bytes are lists of naturals; a Go byte slice expression s[lo:hi]
is modelled by an explicit bounds-checked slice whose failure stands for the
runtime panic (which handleReceivedMessage recovers from).
-/

/-- One sextet of the standard base64 alphabet, returned as its ASCII code
(Go encoding/base64 StdEncoding alphabet A-Z a-z 0-9 + /). -/
def b64char (s : Nat) : Nat :=
  if s < 26 then 65 + s
  else if s < 52 then 97 + (s - 26)
  else if s < 62 then 48 + (s - 52)
  else if s = 62 then 43
  else 47

/-- Inverse alphabet lookup: ASCII code back to its sextet, none for a
character outside the standard alphabet (61, the pad character, included). -/
def b64charDec (c : Nat) : Option Nat :=
  if 65 ≤ c ∧ c ≤ 90 then some (c - 65)
  else if 97 ≤ c ∧ c ≤ 122 then some (26 + (c - 97))
  else if 48 ≤ c ∧ c ≤ 57 then some (52 + (c - 48))
  else if c = 43 then some 62
  else if c = 47 then some 63
  else none

/-- Standard padded base64 encoding of a byte list, as used by
base64.StdEncoding.EncodeToString in the Go source. -/
def b64encode : List Nat → List Nat
  | a :: b :: c :: rest =>
      b64char (a / 4) :: b64char (a % 4 * 16 + b / 16) ::
        b64char (b % 16 * 4 + c / 64) :: b64char (c % 64) :: b64encode rest
  | [a, b] => [b64char (a / 4), b64char (a % 4 * 16 + b / 16), b64char (b % 16 * 4), 61]
  | [a] => [b64char (a / 4), b64char (a % 4 * 16), 61, 61]
  | [] => []

/-- Standard padded base64 decoding, as used by
base64.StdEncoding.DecodeString in the Go source: the input length must be a
multiple of four, pad characters may appear only at the end of the final
quantum, and none stands for the Go decode error. -/
def b64decode : List Nat → Option (List Nat)
  | [] => some []
  | c0 :: c1 :: c2 :: c3 :: rest =>
    match b64charDec c0, b64charDec c1 with
    | some s0, some s1 =>
      if c2 = 61 then
        (if c3 = 61 ∧ rest = [] then some [s0 * 4 + s1 / 16] else none)
      else
        match b64charDec c2 with
        | some s2 =>
          if c3 = 61 then
            (if rest = [] then some [s0 * 4 + s1 / 16, s1 % 16 * 16 + s2 / 4] else none)
          else
            match b64charDec c3, b64decode rest with
            | some s3, some bs =>
                some ((s0 * 4 + s1 / 16) :: (s1 % 16 * 16 + s2 / 4) ::
                  (s2 % 4 * 64 + s3) :: bs)
            | _, _ => none
        | none => none
    | _, _ => none
  | _ => none

/-- Strip trailing pad characters (ASCII 61), mirroring
strings.TrimRight(s, the pad character) in base64EncWithoutPadding. -/
def trimRightEq (l : List Nat) : List Nat :=
  (l.reverse.dropWhile (fun c => c == 61)).reverse

/-- base64EncWithoutPadding from the library source: standard base64
encoding with the trailing pad characters stripped. -/
def base64EncWithoutPadding (b : List Nat) : List Nat :=
  trimRightEq (b64encode b)

/-- base64DecodeNonPadded from the library source: re-pad to a multiple of
four with the pad character, then standard decode; none stands for the
log.Fatal on a decode error. -/
def base64DecodeNonPadded (s : List Nat) : Option (List Nat) :=
  let s2 := if s.length % 4 ≠ 0 then s ++ List.replicate (4 - s.length % 4) 61 else s
  b64decode s2

/-- encodeKey from the library source: prepend the single byte 5 to the
32-byte public key and base64-encode without padding. -/
def encodeKey (key : List Nat) : List Nat :=
  base64EncWithoutPadding (5 :: key)

/-- decodeKey from the library source: base64-decode, then require length 33
and first byte 5 (none stands for the log.Fatal on violation); return the
remaining 32 bytes. -/
def decodeKey (s : List Nat) : Option (List Nat) :=
  match base64DecodeNonPadded s with
  | none => none
  | some b => if b.length = 33 ∧ b.head? = some 5 then some (b.drop 1) else none

/-- generateRegistrationID from the library source: randUint32() masked with
0x3fff.  The 32-bit random source (randUint32, from the crypto helper file
of the repository) is abstracted as the argument r. -/
def generateRegistrationID (r : Nat) : Nat :=
  r &&& 0x3fff

/-- generateSignalingKey from the library source: a 52-byte buffer filled
from the random source (randBytes abstracted as the stream r). -/
def generateSignalingKey (r : Nat → Nat) : List Nat :=
  (List.range 52).map r

/-- Bounds-checked slice l[lo:hi] with Go semantics: defined when
0 ≤ lo ≤ hi ≤ len(l), and none (a runtime panic) otherwise. -/
def goSlice (l : List Nat) (lo hi : Int) : Option (List Nat) :=
  if 0 ≤ lo ∧ lo ≤ hi ∧ hi ≤ (l.length : Int) then
    some ((l.take hi.toNat).drop lo.toNat)
  else none

/-- Modelled from the spec: axolotl.ValidTruncMAC, whose source is not part
of the provided files.  Per the spec, the truncated MAC is valid iff it
equals the first 10 bytes of HMAC-SHA256 over the data, keyed by the MAC
half of the signaling key; HMAC-SHA256 itself is abstracted as the argument
hm (key and data to MAC bytes). -/
def validTruncMAC (hm : List Nat → List Nat → List Nat)
    (data tmac key : List Nat) : Bool :=
  decide (tmac = (hm key data).take 10)

/-- Observable outcome of handleReceivedMessage: a recovered panic (the
deferred recover logs and the function returns nil), an error return, or a
run that reached the AES decryption of the ciphertext with the given key,
carrying the result of the downstream unmarshal-and-dispatch stage. -/
inductive HRes where
  | recovered : HRes
  | err : String → HRes
  | decrypted : List Nat → List Nat → Option String → HRes
deriving DecidableEq

/-- handleReceivedMessage from the library source, stated over the byte
slices it manipulates: macpos is len(msg)-10 as a Go int, tmac is
msg[macpos:], the AES and MAC keys are signalingKey[:32] and
signalingKey[32:], the MAC is verified over msg[:macpos], and on success the
ciphertext msg[1:macpos] is decrypted.  The AES decryption (axolotl.Decrypt)
is abstracted as de, and everything after it (protobuf unmarshal and the
dispatch switch) as af, returning the error the Go function would return.
Any out-of-range slice panics, which the deferred recover turns into a nil
return. -/
def handleReceivedMessage (hm : List Nat → List Nat → List Nat)
    (de : List Nat → List Nat → List Nat)
    (af : List Nat → Option String)
    (sk msg : List Nat) : HRes :=
  match goSlice msg ((msg.length : Int) - 10) (msg.length : Int) with
  | none => .recovered
  | some tmac =>
    match goSlice sk 0 32 with
    | none => .recovered
    | some aesKey =>
      match goSlice sk 32 (sk.length : Int) with
      | none => .recovered
      | some macKey =>
        match goSlice msg 0 ((msg.length : Int) - 10) with
        | none => .recovered
        | some body =>
          if validTruncMAC hm body tmac macKey then
            match goSlice msg 1 ((msg.length : Int) - 10) with
            | none => .recovered
            | some ct => .decrypted aesKey ct (af (de aesKey ct))
          else .err "Invalid MAC for Incoming Message"

/-- The error value the Go caller of handleReceivedMessage observes: nil
after a recovered panic, the error on an error return, and the dispatch
result after a successful decryption. -/
def toGoError : HRes → Option String
  | .recovered => none
  | .err e => some e
  | .decrypted _ _ r => r

/-- Outcome of one pinned dial: an open connection, or the log.Fatal that
terminates the process. -/
inductive DialOutcome where
  | conn : DialOutcome
  | fatal : String → DialOutcome
deriving DecidableEq

/-- The pin loop of makeDialer in transport.go: fold over the peer
certificates, setting the flag when the SHA256 of the marshalled public key
equals the configured fingerprint.  Each certificate is represented by the
DER bytes of its SubjectPublicKeyInfo and sha abstracts crypto/sha256. -/
def keyPinValid (sha : List Nat → List Nat)
    (peerCertDERs : List (List Nat)) (fingerprint : List Nat) : Bool :=
  peerCertDERs.foldl (fun acc der => if sha der = fingerprint then true else acc) false

/-- The dialer returned by makeDialer, after a successful TLS handshake:
run the pin loop and either return the connection or fail fatally with the
exact message from transport.go. -/
def pinnedDial (sha : List Nat → List Nat)
    (peerCertDERs : List (List Nat)) (fingerprint : List Nat) : DialOutcome :=
  if keyPinValid sha peerCertDERs fingerprint = false then
    .fatal "Key Pin Failed. Certificate Signed with an invalid Public Key"
  else .conn

/-- The acknowledgement RESPONSE frame built by sendAck in websocket.go. -/
structure AckMessage where
  id : Nat
  status : Nat
  message : String
deriving DecidableEq

/-- sendAck from websocket.go: a RESPONSE with the request id, status 200
and message OK. -/
def sendAck (id : Nat) : AckMessage :=
  ⟨id, 200, "OK"⟩

/-- The request half of a successfully unmarshalled WebSocketMessage, as
observed through the GetRequest getters in ListenForMessages. -/
structure WSRequest where
  body : List Nat
  id : Nat
deriving DecidableEq

/-- Observable effects of one iteration of the ListenForMessages loop:
the argument handleReceivedMessage was called with (if it was called), the
acknowledgement frame sent (if any), and the handler error logged (if
any). -/
structure IterResult where
  handledBody : Option (List Nat)
  ack : Option AckMessage
  loggedHandlerErr : Option String
deriving DecidableEq

/-- One iteration of the receive loop of ListenForMessages in websocket.go,
after a successful frame receive.  frame is none when proto.Unmarshal fails
(logged, continue).  On the staging branch the raw body is handled and, only
when the handler returns nil, the frame is acknowledged.  On the non-staging
branch the body is base64-decoded; a decode failure logs and continues (the
handler call nested below the continue statement in that branch is
unreachable), and a decoded body falls through to the acknowledgement with
the handler never called. -/
def listenIteration (isStaging : Bool) (handle : List Nat → Option String)
    (frame : Option WSRequest) : IterResult :=
  match frame with
  | none => ⟨none, none, none⟩
  | some req =>
    if isStaging then
      match handle req.body with
      | some e => ⟨some req.body, none, some e⟩
      | none => ⟨some req.body, some (sendAck req.id), none⟩
    else
      match b64decode req.body with
      | none => ⟨none, none, none⟩
      | some _m => ⟨none, some (sendAck req.id), none⟩

/-- The store fields Setup persists during a first-time registration. -/
structure StoreState where
  regID : Option Nat
  httpPassword : Option (List Nat)
  signalingKey : Option (List Nat)
  identityKey : Option Nat
deriving DecidableEq

/-- Store writes and calls performed by Setup, in order. -/
inductive SetupEvent where
  | putRegID : Nat → SetupEvent
  | putPassword : List Nat → SetupEvent
  | putSignalingKey : List Nat → SetupEvent
  | putIdentity : Nat → SetupEvent
  | registerDeviceCall : SetupEvent
  | loads : SetupEvent
deriving DecidableEq

/-- Setup from the library source, for a store whose validity is
storeValid.  When registration is needed it generates and immediately
persists the registration id, HTTP password, signaling key and identity
keypair (the generated values are the abstract arguments rid, pw, sk, ik),
then calls registerDevice, whose network outcome is the abstract argument
regResult; a registerDevice error is returned as is, with no store
rollback.  Otherwise, and after a successful registration, it reloads the
registration info from the store.  Returns the Go error, the final store
and the event trace in execution order. -/
def setup (storeValid : Bool) (regResult : Option String)
    (rid : Nat) (pw sk : List Nat) (ik : Nat) (s : StoreState) :
    Option String × StoreState × List SetupEvent :=
  if !storeValid then
    let s4 : StoreState :=
      { regID := some rid, httpPassword := some pw,
        signalingKey := some sk, identityKey := some ik }
    let ev : List SetupEvent :=
      [.putRegID rid, .putPassword pw, .putSignalingKey sk,
       .putIdentity ik, .registerDeviceCall]
    match regResult with
    | some e => (some e, s4, ev)
    | none => (none, s4, ev ++ [.loads])
  else (none, s, [.loads])

/-! Helper lemmas. -/

theorem goSlice_eq_some (l : List Nat) (lo hi : Int) (h1 : 0 ≤ lo) (h2 : lo ≤ hi)
    (h3 : hi ≤ (l.length : Int)) :
    goSlice l lo hi = some ((l.take hi.toNat).drop lo.toNat) := by
  unfold goSlice
  rw [if_pos ⟨h1, h2, h3⟩]

theorem goSlice_eq_none (l : List Nat) (lo hi : Int)
    (h : ¬(0 ≤ lo ∧ lo ≤ hi ∧ hi ≤ (l.length : Int))) :
    goSlice l lo hi = none := by
  unfold goSlice
  rw [if_neg h]

theorem goSlice_tail (l : List Nat) (h : 10 ≤ l.length) :
    goSlice l ((l.length : Int) - 10) (l.length : Int) = some (l.drop (l.length - 10)) := by
  rw [goSlice_eq_some l _ _ (by omega) (by omega) (by omega)]
  have h2 : ((l.length : Int) - 10).toNat = l.length - 10 := by omega
  rw [h2]
  simp

theorem goSlice_aes (sk : List Nat) (h : 32 ≤ sk.length) :
    goSlice sk 0 32 = some (sk.take 32) := by
  rw [goSlice_eq_some sk 0 32 (by omega) (by omega) (by omega)]
  simp

theorem goSlice_mac (sk : List Nat) (h : 32 ≤ sk.length) :
    goSlice sk 32 (sk.length : Int) = some (sk.drop 32) := by
  rw [goSlice_eq_some sk 32 _ (by omega) (by omega) (by omega)]
  simp

theorem goSlice_body (l : List Nat) (h : 10 ≤ l.length) :
    goSlice l 0 ((l.length : Int) - 10) = some (l.take (l.length - 10)) := by
  rw [goSlice_eq_some l 0 _ (by omega) (by omega) (by omega)]
  have h2 : ((l.length : Int) - 10).toNat = l.length - 10 := by omega
  rw [h2]
  simp

theorem goSlice_ct (l : List Nat) (h : 11 ≤ l.length) :
    goSlice l 1 ((l.length : Int) - 10) = some ((l.take (l.length - 10)).drop 1) := by
  rw [goSlice_eq_some l 1 _ (by omega) (by omega) (by omega)]
  have h2 : ((l.length : Int) - 10).toNat = l.length - 10 := by omega
  rw [h2]
  simp

theorem goSlice_ct_none (l : List Nat) (h : l.length = 10) :
    goSlice l 1 ((l.length : Int) - 10) = none := by
  apply goSlice_eq_none
  omega

theorem handle_short_msg (hm : List Nat → List Nat → List Nat)
    (de : List Nat → List Nat → List Nat) (af : List Nat → Option String)
    (sk msg : List Nat) (h : msg.length < 10) :
    handleReceivedMessage hm de af sk msg = .recovered := by
  have h1 : goSlice msg ((msg.length : Int) - 10) (msg.length : Int) = none := by
    apply goSlice_eq_none
    omega
  simp only [handleReceivedMessage, h1]

theorem handle_short_key (hm : List Nat → List Nat → List Nat)
    (de : List Nat → List Nat → List Nat) (af : List Nat → Option String)
    (sk msg : List Nat) (h : sk.length < 32) :
    handleReceivedMessage hm de af sk msg = .recovered := by
  by_cases hlen : msg.length < 10
  · exact handle_short_msg hm de af sk msg hlen
  · have h2 : goSlice sk 0 32 = none := by
      apply goSlice_eq_none
      omega
    simp only [handleReceivedMessage, goSlice_tail msg (by omega), h2]

theorem handle_mac_fail (hm : List Nat → List Nat → List Nat)
    (de : List Nat → List Nat → List Nat) (af : List Nat → Option String)
    (sk msg : List Nat) (hmsg : 10 ≤ msg.length) (hsk : 32 ≤ sk.length)
    (hmac : validTruncMAC hm (msg.take (msg.length - 10)) (msg.drop (msg.length - 10))
        (sk.drop 32) = false) :
    handleReceivedMessage hm de af sk msg = .err "Invalid MAC for Incoming Message" := by
  simp only [handleReceivedMessage, goSlice_tail msg hmsg, goSlice_aes sk hsk,
    goSlice_mac sk hsk, goSlice_body msg hmsg, hmac, Bool.false_eq_true, if_false]

theorem handle_decrypts (hm : List Nat → List Nat → List Nat)
    (de : List Nat → List Nat → List Nat) (af : List Nat → Option String)
    (sk msg : List Nat) (hmsg : 11 ≤ msg.length) (hsk : 32 ≤ sk.length)
    (hmac : validTruncMAC hm (msg.take (msg.length - 10)) (msg.drop (msg.length - 10))
        (sk.drop 32) = true) :
    handleReceivedMessage hm de af sk msg =
      .decrypted (sk.take 32) ((msg.take (msg.length - 10)).drop 1)
        (af (de (sk.take 32) ((msg.take (msg.length - 10)).drop 1))) := by
  simp only [handleReceivedMessage, goSlice_tail msg (by omega), goSlice_aes sk hsk,
    goSlice_mac sk hsk, goSlice_body msg (by omega), hmac, if_true, goSlice_ct msg hmsg]

theorem handle_len10_valid (hm : List Nat → List Nat → List Nat)
    (de : List Nat → List Nat → List Nat) (af : List Nat → Option String)
    (sk msg : List Nat) (hmsg : msg.length = 10) (hsk : 32 ≤ sk.length)
    (hmac : validTruncMAC hm (msg.take (msg.length - 10)) (msg.drop (msg.length - 10))
        (sk.drop 32) = true) :
    handleReceivedMessage hm de af sk msg = .recovered := by
  simp only [handleReceivedMessage, goSlice_tail msg (by omega), goSlice_aes sk hsk,
    goSlice_mac sk hsk, goSlice_body msg (by omega), hmac, if_true,
    goSlice_ct_none msg hmsg]

theorem keyPinValid_foldl (sha : List Nat → List Nat) (fp : List Nat) :
    ∀ (ders : List (List Nat)) (acc : Bool),
      (ders.foldl (fun a der => if sha der = fp then true else a) acc = true ↔
        (acc = true ∨ ∃ der ∈ ders, sha der = fp)) := by
  intro ders
  induction ders with
  | nil => intro acc; simp
  | cons d tl ih =>
    intro acc
    simp only [List.foldl_cons, ih, List.mem_cons]
    by_cases hd : sha d = fp
    · simp [hd]
    · simp only [if_neg hd]
      constructor
      · rintro (hacc | ⟨der, hmem, hder⟩)
        · exact Or.inl hacc
        · exact Or.inr ⟨der, Or.inr hmem, hder⟩
      · rintro (hacc | ⟨der, hmem | hmem, hder⟩)
        · exact Or.inl hacc
        · subst hmem; exact absurd hder hd
        · exact Or.inr ⟨der, hmem, hder⟩

theorem keyPinValid_true_iff (sha : List Nat → List Nat)
    (chain : List (List Nat)) (fp : List Nat) :
    keyPinValid sha chain fp = true ↔ ∃ der ∈ chain, sha der = fp := by
  have h := keyPinValid_foldl sha fp chain false
  simpa [keyPinValid] using h

/-! Claim theorems. -/

/-- C1: the claim says every successfully unmarshalled websocket frame has
its request body (base64-decoded for a non-staging server) passed to
handleReceivedMessage before the frame is acknowledged.  The code violates
this on the non-staging branch: the handler call sits after the continue
statement inside the base64-error branch and is unreachable, so a frame
whose body decodes successfully is acknowledged with the handler never
called.  This theorem evaluates the loop iteration at such a frame: the
handler (which would even report an error) is not invoked, yet the
acknowledgement for request id 7 is sent. -/
theorem c1_prod_acks_without_handler :
    listenIteration false (fun _ => some "Invalid MAC for Incoming Message")
        (some ⟨[65, 65, 65, 65], 7⟩) =
      ⟨none, some ⟨7, 200, "OK"⟩, none⟩ := by
  decide

/-- C2 counterexample: on the staging branch with a handler that returns an
error, the loop iteration sends no acknowledgement at all, contradicting
the claim that the envelope is still ACKed. -/
theorem c2_error_envelope_not_acked :
    (listenIteration true (fun _ => some "Invalid MAC for Incoming Message")
        (some ⟨[1, 2, 3], 5⟩)).ack = none := by
  decide

/-- C2 (amended): whenever handleReceivedMessage returns an error for a
received envelope, ListenForMessages logs the error and drops the envelope
WITHOUT sending the acknowledgement (the continue statement skips sendAck);
the acknowledgement built by sendAck, sent only on success, carries the
request id, status 200 and message OK. -/
theorem c2_amended_error_logged_dropped_no_ack (handle : List Nat → Option String)
    (b : List Nat) (i : Nat) (e : String) (h : handle b = some e) :
    listenIteration true handle (some ⟨b, i⟩) = ⟨some b, none, some e⟩ ∧
      sendAck i = ⟨i, 200, "OK"⟩ := by
  constructor
  · simp only [listenIteration, h, if_true]
  · rfl

theorem c2_amended_witness :
    listenIteration true (fun _ => some "boom") (some ⟨[4], 9⟩) =
        ⟨some [4], none, some "boom"⟩ ∧
      sendAck 9 = ⟨9, 200, "OK"⟩ :=
  c2_amended_error_logged_dropped_no_ack (fun _ => some "boom") [4] 9 "boom" rfl

/-- C3: the pinned dialer returns an open connection exactly when at least
one certificate of the peer chain has SHA256 of its marshalled
SubjectPublicKeyInfo equal to the configured fingerprint, and on every
chain with no match it instead fails fatally with the log.Fatal message
from transport.go. -/
theorem c3_pin_iff_fingerprint_match (sha : List Nat → List Nat)
    (chain : List (List Nat)) (fp : List Nat) :
    (pinnedDial sha chain fp = .conn ↔ ∃ der ∈ chain, sha der = fp) ∧
    (pinnedDial sha chain fp =
        .fatal "Key Pin Failed. Certificate Signed with an invalid Public Key" ↔
      ¬∃ der ∈ chain, sha der = fp) := by
  have hiff := keyPinValid_true_iff sha chain fp
  constructor
  · constructor
    · intro hconn
      apply hiff.mp
      by_contra hfalse
      have hb : keyPinValid sha chain fp = false := by
        cases hv : keyPinValid sha chain fp
        · rfl
        · exact absurd hv hfalse
      simp [pinnedDial, hb] at hconn
    · intro hex
      have hb := hiff.mpr hex
      simp [pinnedDial, hb]
  · constructor
    · intro hfatal hex
      have hb := hiff.mpr hex
      simp [pinnedDial, hb] at hfatal
    · intro hex
      have hb : keyPinValid sha chain fp = false := by
        cases hv : keyPinValid sha chain fp
        · rfl
        · exact absurd (hiff.mp hv) hex
      simp [pinnedDial, hb]

/-- C7: for every value of the underlying 32-bit random source,
generateRegistrationID returns an integer below 16384, fitting in 14
bits. -/
theorem c7_registration_id_lt_16384 (r : Nat) : generateRegistrationID r < 16384 := by
  have h : r &&& 0x3fff ≤ 0x3fff := Nat.and_le_right
  unfold generateRegistrationID
  omega

/-- C9: for every input shorter than 10 bytes, handleReceivedMessage
neither propagates a panic nor reports a failure: the out-of-range slice
panic is recovered by the deferred handler and the Go function returns
nil, indistinguishable from a successfully handled envelope. -/
theorem c9_short_msg_recovered_nil (hm : List Nat → List Nat → List Nat)
    (de : List Nat → List Nat → List Nat) (af : List Nat → Option String)
    (sk msg : List Nat) (h : msg.length < 10) :
    handleReceivedMessage hm de af sk msg = .recovered ∧
      toGoError (handleReceivedMessage hm de af sk msg) = none := by
  have h1 := handle_short_msg hm de af sk msg h
  refine ⟨h1, ?_⟩
  rw [h1]
  rfl

theorem c9_witness :
    handleReceivedMessage (fun _ _ => []) (fun _ c => c) (fun _ => none)
        (List.replicate 52 0) [1, 2, 3] = .recovered ∧
      toGoError (handleReceivedMessage (fun _ _ => []) (fun _ c => c) (fun _ => none)
        (List.replicate 52 0) [1, 2, 3]) = none :=
  c9_short_msg_recovered_nil (fun _ _ => []) (fun _ c => c) (fun _ => none)
    (List.replicate 52 0) [1, 2, 3] (by decide)

/-- C10: during a first-time Setup (store not valid) the freshly generated
registration id, HTTP password, signaling key and identity keypair are all
persisted to the store before registerDevice is called (the event trace
lists the four puts ahead of the registerDevice call), and when
registerDevice returns an error Setup returns that error with the four
store writes in place, not rolled back. -/
theorem c10_setup_persists_before_register (e : String) (rid : Nat)
    (pw sk : List Nat) (ik : Nat) (s : StoreState) :
    setup false (some e) rid pw sk ik s =
      (some e,
       { regID := some rid, httpPassword := some pw,
         signalingKey := some sk, identityKey := some ik },
       [.putRegID rid, .putPassword pw, .putSignalingKey sk,
        .putIdentity ik, .registerDeviceCall]) := rfl

/-- C4 counterexample: a 10-byte message whose last 10 bytes equal the
first 10 bytes of the keyed MAC over the (empty) remainder satisfies the
claim hypothesis with len(msg) = 10 and a passing MAC check, yet
handleReceivedMessage ends in the recovered panic caused by the ciphertext
slice msg[1:0], so AES decryption does not proceed. -/
theorem c4_len10_valid_mac_not_decrypted :
    validTruncMAC (fun _ _ => List.replicate 32 3) [] (List.replicate 10 3)
        ((List.replicate 52 1).drop 32) = true ∧
    handleReceivedMessage (fun _ _ => List.replicate 32 3) (fun _ c => c)
        (fun _ => none) (List.replicate 52 1) (List.replicate 10 3) = .recovered := by
  constructor
  · decide
  · decide

/-- C4 (amended): for every msg with len(msg) at least 10 and the 52-byte
signaling key in place (32 bytes or more), handleReceivedMessage returns
the invalid-MAC error without performing any decryption when the last 10
bytes of msg differ from the first 10 bytes of the keyed MAC over the rest;
when they are equal the MAC check passes and, provided len(msg) is at
least 11, AES decryption of msg[1:len(msg)-10] with key signalingKey[:32]
proceeds (at len(msg) = 10 the ciphertext slice panics and the recovered
handler returns nil without decrypting). -/
theorem c4_amended_mac_gate (hm : List Nat → List Nat → List Nat)
    (de : List Nat → List Nat → List Nat) (af : List Nat → Option String)
    (sk msg : List Nat) :
    (10 ≤ msg.length → 32 ≤ sk.length →
      validTruncMAC hm (msg.take (msg.length - 10)) (msg.drop (msg.length - 10))
          (sk.drop 32) = false →
      handleReceivedMessage hm de af sk msg = .err "Invalid MAC for Incoming Message") ∧
    (11 ≤ msg.length → 32 ≤ sk.length →
      validTruncMAC hm (msg.take (msg.length - 10)) (msg.drop (msg.length - 10))
          (sk.drop 32) = true →
      handleReceivedMessage hm de af sk msg =
        .decrypted (sk.take 32) ((msg.take (msg.length - 10)).drop 1)
          (af (de (sk.take 32) ((msg.take (msg.length - 10)).drop 1)))) :=
  ⟨fun h1 h2 h3 => handle_mac_fail hm de af sk msg h1 h2 h3,
   fun h1 h2 h3 => handle_decrypts hm de af sk msg h1 h2 h3⟩

theorem c4_amended_witness :
    handleReceivedMessage (fun _ _ => List.replicate 32 0) (fun _ c => c)
        (fun _ => none) (List.replicate 52 0) (List.replicate 12 1) =
      .err "Invalid MAC for Incoming Message" ∧
    handleReceivedMessage (fun _ _ => List.replicate 32 0) (fun _ c => c)
        (fun _ => none) (List.replicate 52 0) (List.replicate 12 0) =
      .decrypted ((List.replicate 52 0).take 32)
        (((List.replicate 12 0).take ((List.replicate 12 0).length - 10)).drop 1)
        none :=
  ⟨(c4_amended_mac_gate (fun _ _ => List.replicate 32 0) (fun _ c => c)
      (fun _ => none) (List.replicate 52 0) (List.replicate 12 1)).1
      (by decide) (by decide) (by decide),
   (c4_amended_mac_gate (fun _ _ => List.replicate 32 0) (fun _ c => c)
      (fun _ => none) (List.replicate 52 0) (List.replicate 12 0)).2
      (by decide) (by decide) (by decide)⟩

/-- C5 counterexample: an envelope whose first byte is 3 (not the claimed
mandatory version 1) passes the MAC check and is decrypted and dispatched;
the envelope layer never rejects it, refuting the claim that only
version-1 envelopes are decrypted. -/
theorem c5_version3_still_decrypted :
    (3 :: 4 :: List.replicate 10 9).head? = some 3 ∧
    handleReceivedMessage (fun _ _ => List.replicate 32 9) (fun _ c => c)
        (fun _ => none) (List.replicate 52 2) (3 :: 4 :: List.replicate 10 9) =
      .decrypted (List.replicate 32 2) [4] none := by
  constructor
  · decide
  · decide

/-- C5 (amended): the envelope layer performs no version check at all: the
first byte of the message is skipped (the ciphertext starts at msg[1]) but
never compared to 1, and every envelope whose truncated MAC verifies is
decrypted and dispatched whatever its first byte is.  Stated here for any
first byte v different from 1. -/
theorem c5_amended_no_version_check (hm : List Nat → List Nat → List Nat)
    (de : List Nat → List Nat → List Nat) (af : List Nat → Option String)
    (sk msg : List Nat) (v : Nat) (_hv : msg.head? = some v) (_hv1 : v ≠ 1)
    (hmsg : 11 ≤ msg.length) (hsk : 32 ≤ sk.length)
    (hmac : validTruncMAC hm (msg.take (msg.length - 10)) (msg.drop (msg.length - 10))
        (sk.drop 32) = true) :
    handleReceivedMessage hm de af sk msg =
      .decrypted (sk.take 32) ((msg.take (msg.length - 10)).drop 1)
        (af (de (sk.take 32) ((msg.take (msg.length - 10)).drop 1))) :=
  handle_decrypts hm de af sk msg hmsg hsk hmac

theorem c5_amended_witness :
    handleReceivedMessage (fun _ _ => List.replicate 32 7) (fun _ c => c)
        (fun _ => none) (List.replicate 52 1) (2 :: 9 :: List.replicate 10 7) =
      .decrypted ((List.replicate 52 1).take 32)
        (((2 :: 9 :: List.replicate 10 7).take
          ((2 :: 9 :: List.replicate 10 7).length - 10)).drop 1)
        none :=
  c5_amended_no_version_check (fun _ _ => List.replicate 32 7) (fun _ c => c)
    (fun _ => none) (List.replicate 52 1) (2 :: 9 :: List.replicate 10 7) 2
    (by decide) (by decide) (by decide) (by decide) (by decide)

/-- C6 counterexample: with a stored signaling key of only 31 bytes
(shorter than 52) and a well-formed 12-byte envelope, the envelope layer
does not reject with an error: the out-of-range key slice panic is
recovered and the Go function returns nil. -/
theorem c6_short_key_no_error :
    (List.replicate 31 0).length < 52 ∧
    toGoError (handleReceivedMessage (fun _ _ => []) (fun _ c => c) (fun _ => none)
        (List.replicate 31 0) (List.replicate 12 0)) = none := by
  constructor
  · decide
  · decide

/-- C6 (amended): generateSignalingKey returns a byte string of length
exactly 52; however the envelope layer does not validate the stored key
length: for every stored signalingKey shorter than 32 bytes
handleReceivedMessage ends in the recovered slice panic and returns nil
(no error) instead of rejecting the envelope. -/
theorem c6_amended_signaling_key (r : Nat → Nat)
    (hm : List Nat → List Nat → List Nat) (de : List Nat → List Nat → List Nat)
    (af : List Nat → Option String) (sk msg : List Nat) :
    (generateSignalingKey r).length = 52 ∧
    (sk.length < 32 →
      handleReceivedMessage hm de af sk msg = .recovered ∧
        toGoError (handleReceivedMessage hm de af sk msg) = none) := by
  constructor
  · simp [generateSignalingKey]
  · intro h
    have h1 := handle_short_key hm de af sk msg h
    refine ⟨h1, ?_⟩
    rw [h1]
    rfl

theorem c6_amended_witness :
    (generateSignalingKey (fun n => n)).length = 52 ∧
    handleReceivedMessage (fun _ _ => []) (fun _ c => c) (fun _ => none)
        (List.replicate 31 2) (List.replicate 15 0) = .recovered :=
  ⟨(c6_amended_signaling_key (fun n => n) (fun _ _ => []) (fun _ c => c)
      (fun _ => none) (List.replicate 31 2) (List.replicate 15 0)).1,
   ((c6_amended_signaling_key (fun n => n) (fun _ _ => []) (fun _ c => c)
      (fun _ => none) (List.replicate 31 2) (List.replicate 15 0)).2 (by decide)).1⟩

theorem b64char_ne_61 (s : Nat) : b64char s ≠ 61 := by
  unfold b64char
  repeat' split
  all_goals omega

theorem b64charDec_b64char : ∀ s < 64, b64charDec (b64char s) = some s := by decide

theorem b64_roundtrip : ∀ l : List Nat, (∀ x ∈ l, x < 256) → l.length % 3 = 0 →
    b64decode (b64encode l) = some l
  | [] => fun _ _ => by simp [b64encode, b64decode]
  | [a] => fun _ h => by simp at h
  | [a, b] => fun _ h => by simp at h
  | a :: b :: c :: rest => fun hlt hlen => by
    have ha : a < 256 := hlt a (by simp)
    have hb : b < 256 := hlt b (by simp)
    have hc : c < 256 := hlt c (by simp)
    have hlen2 : rest.length % 3 = 0 := by
      simp only [List.length_cons] at hlen
      omega
    have ih := b64_roundtrip rest (fun x hx => hlt x (by simp [hx])) hlen2
    have h0 := b64charDec_b64char (a / 4) (by omega)
    have h1 := b64charDec_b64char (a % 4 * 16 + b / 16) (by omega)
    have h2 := b64charDec_b64char (b % 16 * 4 + c / 64) (by omega)
    have h3 := b64charDec_b64char (c % 64) (by omega)
    have hne2 : ¬(b64char (b % 16 * 4 + c / 64) = 61) := b64char_ne_61 _
    have hne3 : ¬(b64char (c % 64) = 61) := b64char_ne_61 _
    simp only [b64encode, b64decode, h0, h1, h2, h3, ih, hne2, hne3, if_false,
      Option.some.injEq, List.cons.injEq]
    refine ⟨by omega, by omega, by omega, trivial⟩

theorem b64encode_ne_61 : ∀ l : List Nat, l.length % 3 = 0 →
    ∀ x ∈ b64encode l, x ≠ 61
  | [] => fun _ x hx => by simp [b64encode] at hx
  | [a] => fun h => by simp at h
  | [a, b] => fun h => by simp at h
  | a :: b :: c :: rest => fun hlen x hx => by
    have hlen2 : rest.length % 3 = 0 := by
      simp only [List.length_cons] at hlen
      omega
    have ih := b64encode_ne_61 rest hlen2
    simp only [b64encode, List.mem_cons] at hx
    rcases hx with h | h | h | h | h
    · rw [h]; exact b64char_ne_61 _
    · rw [h]; exact b64char_ne_61 _
    · rw [h]; exact b64char_ne_61 _
    · rw [h]; exact b64char_ne_61 _
    · exact ih x h

theorem b64encode_len : ∀ l : List Nat, l.length % 3 = 0 →
    (b64encode l).length % 4 = 0
  | [] => fun _ => by simp [b64encode]
  | [a] => fun h => by simp at h
  | [a, b] => fun h => by simp at h
  | a :: b :: c :: rest => fun hlen => by
    have hlen2 : rest.length % 3 = 0 := by
      simp only [List.length_cons] at hlen
      omega
    have ih := b64encode_len rest hlen2
    simp only [b64encode, List.length_cons]
    omega

theorem dropWhile_of_all_false (p : Nat → Bool) :
    ∀ l : List Nat, (∀ x ∈ l, p x = false) → l.dropWhile p = l
  | [] => fun _ => rfl
  | a :: tl => fun h => by
    have ha : p a = false := h a (by simp)
    simp [List.dropWhile_cons, ha]

theorem trimRightEq_eq_self (l : List Nat) (h : ∀ x ∈ l, x ≠ 61) :
    trimRightEq l = l := by
  unfold trimRightEq
  rw [dropWhile_of_all_false _ _ ?_, List.reverse_reverse]
  intro x hx
  have hne := h x (List.mem_reverse.mp hx)
  simpa using hne

/-- C8: for every 32-byte public key k, decodeKey inverts encodeKey:
encodeKey prepends the byte 5 and base64-encodes without padding, and
decodeKey re-pads, decodes, checks length 33 and leading byte 5, and
returns the original key bytes. -/
theorem c8_decode_encode_key_roundtrip (k : List Nat) (hlen : k.length = 32)
    (hlt : ∀ x ∈ k, x < 256) : decodeKey (encodeKey k) = some k := by
  have hall : ∀ x ∈ (5 :: k), x < 256 := by
    intro x hx
    rcases List.mem_cons.mp hx with h | h
    · omega
    · exact hlt x h
  have hmod : (5 :: k).length % 3 = 0 := by simp [hlen]
  have henc : base64EncWithoutPadding (5 :: k) = b64encode (5 :: k) :=
    trimRightEq_eq_self _ (b64encode_ne_61 _ hmod)
  have hlen4 : (b64encode (5 :: k)).length % 4 = 0 := b64encode_len _ hmod
  have hdec : base64DecodeNonPadded (b64encode (5 :: k)) = some (5 :: k) := by
    unfold base64DecodeNonPadded
    simp only [hlen4]
    simpa using b64_roundtrip _ hall hmod
  unfold encodeKey decodeKey
  rw [henc, hdec]
  show (if (5 :: k).length = 33 ∧ (5 :: k).head? = some 5
      then some ((5 :: k).drop 1) else none) = some k
  rw [if_pos ⟨by simp [hlen], rfl⟩]
  simp

theorem c8_roundtrip_witness :
    decodeKey (encodeKey (List.range 32)) = some (List.range 32) :=
  c8_decode_encode_key_roundtrip (List.range 32) (by decide) (by decide)
